import Mathlib

/-!
Verification of the invalidation / lazy-recomputation engine of
`src/src/flash.ts/display/DisplayObject.ts` (Shumway's `DisplayObject` class).

The embedding below translates the source functions into Lean:
  * the per-node flag bitset (`_setFlags`, `_removeFlags`, `_hasFlags`) becomes
    `setFlags`, `removeFlags`, `hasFlags` over `Nat` bitmasks (flag words fit in
    32 bits; `~flags` in JS is modelled as xor with the 32-bit all-ones mask);
  * `_propagateFlags` becomes `propagateFlags` over a subtree value (`DTree`)
    plus an explicit chain of ancestor flag words (JS walks `parent` links);
  * `_getAncestors`, `_findClosestAncestor`, `_isAncestor` become list walks
    over the self-to-root chain of nodes;
  * `_getConcatenatedMatrix` / `_getConcatenatedColorTransform` /
    `_getContentBounds` / `_getTransformedBounds` become functions over node
    states; a JS crash (failed `Debug.assert`, `TypeError` on a `null`
    dereference, `ReferenceError` on an undeclared identifier) is modelled as
    the result `none`;
  * JS numbers are modelled as exact rationals (`ℚ`); the `|0` coercion of the
    position setters is modelled by truncation toward zero followed by a 32-bit
    signed wrap.
-/

/-- Flag constant `DisplayObjectFlags.Visible = 0x0001`. -/
def VisibleF : Nat := 0x0001

/-- Flag constant `DisplayObjectFlags.InvalidBounds = 0x0004`. -/
def InvalidBoundsF : Nat := 0x0004

/-- Flag constant `DisplayObjectFlags.InvalidMatrix = 0x0008`. -/
def InvalidMatrixF : Nat := 0x0008

/-- Flag constant `DisplayObjectFlags.InvalidConcatenatedMatrix = 0x0010`. -/
def InvalidConcatenatedMatrixF : Nat := 0x0010

/-- Flag constant `DisplayObjectFlags.InvalidConcatenatedColorTransform = 0x0020`. -/
def InvalidConcatenatedColorTransformF : Nat := 0x0020

/-- Flag constant `DisplayObjectFlags.InvalidPaint = 0x0040`. -/
def InvalidPaintF : Nat := 0x0040

/-- Flag constant `DisplayObjectFlags.AnimatedByTimeline = 0x0400`. -/
def AnimatedByTimelineF : Nat := 0x0400

/-- All-ones mask of the 32-bit JS integer space, used to model the JS `~`
operator on flag words: `x & ~f` becomes `x &&& (mask32 ^^^ f)`. -/
def mask32 : Nat := 0xFFFFFFFF

/-- Source `_setFlags(flags) { this._flags |= flags; }`. -/
def setFlags (flags x : Nat) : Nat := x ||| flags

/-- Source `_removeFlags(flags) { this._flags &= ~flags; }`; flag words fit in
32 bits, so JS `~flags` on the flag word equals `mask32 ^^^ flags`. -/
def removeFlags (flags x : Nat) : Nat := x &&& (mask32 ^^^ flags)

/-- Source `_hasFlags(flags) { return (this._flags & flags) === flags; }`. -/
def hasFlags (flags x : Nat) : Bool := decide (x &&& flags = flags)

/-- A subtree of the display list: per-node flag word, the
`this instanceof DisplayObjectContainer` capability, the local matrix
translation entries `_matrix.tx` / `_matrix.ty` (in twips, the only local state
the position setters of the claims touch), and the ordered children. -/
inductive DTree : Type where
  | mk : Nat → Bool → Int → Int → List DTree → DTree

/-- Flag word of the subtree root. -/
def DTree.flags : DTree → Nat
  | .mk f _ _ _ _ => f

/-- Container capability of the subtree root. -/
def DTree.isContainer : DTree → Bool
  | .mk _ c _ _ _ => c

/-- Local `_matrix.tx` of the subtree root. -/
def DTree.tx : DTree → Int
  | .mk _ _ x _ _ => x

/-- Local `_matrix.ty` of the subtree root. -/
def DTree.ty : DTree → Int
  | .mk _ _ _ y _ => y

/-- Children list of the subtree root. -/
def DTree.children : DTree → List DTree
  | .mk _ _ _ _ cs => cs

mutual
/-- Source `_propagateFlags(flags, direction)` restricted to the subtree below
the receiver (the upward walk over `parent` links is handled by
`propagateFlags`, since ancestors are not part of the subtree value).
Faithful detail: the recursive call on line 314 is
`children[i]._propagateFlags(flags)` — the `direction` argument is omitted, so
inside the recursive call `direction` is `undefined` and both bitwise tests
`undefined & Direction.Upward` and `undefined & Direction.Downward` evaluate
to `0` in JS; the omitted argument is therefore modelled as direction `0`. -/
def propagateFlagsT (fl dir : Nat) : DTree → DTree
  | .mk f c x y cs =>
    if hasFlags fl f then .mk f c x y cs
    else
      .mk (setFlags fl f) c x y
        (if (dir &&& 2 != 0) && c then propagateChildren fl cs else cs)

/-- The `for` loop over `children` in `_propagateFlags`: each child lacking the
flag receives the recursive call (with the omitted `direction` argument,
i.e. direction `0`). -/
def propagateChildren (fl : Nat) : List DTree → List DTree
  | [] => []
  | t :: ts =>
    (if hasFlags fl t.flags then t else propagateFlagsT fl 0 t) ::
      propagateChildren fl ts
end

/-- Source `_propagateFlags(flags, direction)` on a node given as its ancestor
flag-word chain (parent first, root last) plus the subtree rooted at it.
`Direction.Upward = 1`, `Direction.Downward = 2`.  If the node already has the
flag it returns immediately; otherwise it sets the flag on the node, the upward
walk sets it unconditionally on every ancestor, and the downward walk is
`propagateFlagsT`. -/
def propagateFlags (fl dir : Nat) (anc : List Nat) (t : DTree) : List Nat × DTree :=
  if hasFlags fl t.flags then (anc, t)
  else
    ((if dir &&& 1 != 0 then anc.map (setFlags fl) else anc),
     propagateFlagsT fl dir t)

mutual
/-- Every strict descendant of the root, transitively, has the flag set. -/
def descendantsHaveFlags (fl : Nat) : DTree → Bool
  | .mk _ _ _ _ cs => descendantsHaveFlagsL fl cs

/-- List version of `descendantsHaveFlags`: every node in every subtree of the
list has the flag set. -/
def descendantsHaveFlagsL (fl : Nat) : List DTree → Bool
  | [] => true
  | t :: ts =>
    (hasFlags fl t.flags && descendantsHaveFlags fl t) &&
      descendantsHaveFlagsL fl ts
end

/-- Three-node chain (root, child, grandchild), all container-capable, all
flags clear: the input on which downward propagation should reach the
grandchild. -/
def chain3 : DTree := .mk 0 true 0 0 [.mk 0 true 0 0 [.mk 0 true 0 0 []]]

/-- A 2-D affine matrix in Flash's layout `(a, b, c, d, tx, ty)`; a row vector
`(x, y)` maps to `(x*a + y*c + tx, x*b + y*d + ty)`.  Entries are exact
rationals standing for the JS numbers. -/
structure Mat where
  a : ℚ
  b : ℚ
  c : ℚ
  d : ℚ
  tx : ℚ
  ty : ℚ
deriving DecidableEq

/-- The identity matrix, the value of `new Matrix()`. -/
def idMat : Mat := ⟨1, 0, 0, 1, 0, 0⟩

/-- Modelled from the spec: `flash.geom.Matrix.concat` is not under `src/`;
spec section 4.5 describes composition as the matrix product in the order
written (`inverse(target) * node`), which in Flash's row-vector convention is
`this := this * other` — the transform that applies `this` first, then
`other`. -/
def matConcat (m1 m2 : Mat) : Mat :=
  ⟨m1.a * m2.a + m1.b * m2.c,
   m1.a * m2.b + m1.b * m2.d,
   m1.c * m2.a + m1.d * m2.c,
   m1.c * m2.b + m1.d * m2.d,
   m1.tx * m2.a + m1.ty * m2.c + m2.tx,
   m1.tx * m2.b + m1.ty * m2.d + m2.ty⟩

/-- Determinant of the linear part of an affine matrix. -/
def matDet (m : Mat) : ℚ := m.a * m.d - m.b * m.c

/-- Modelled from the spec: `flash.geom.Matrix.invert` is not under `src/`;
the standard affine inverse (spec section 4.5: `inverse(target-space
concatenated transform)`). -/
def matInvert (m : Mat) : Mat :=
  ⟨m.d / matDet m, -m.b / matDet m, -m.c / matDet m, m.a / matDet m,
   (m.c * m.ty - m.d * m.tx) / matDet m,
   (m.b * m.tx - m.a * m.ty) / matDet m⟩

/-- Image of the point `(x, y)` under an affine matrix (row-vector
convention). -/
def applyMat (m : Mat) (x y : ℚ) : ℚ × ℚ :=
  (x * m.a + y * m.c + m.tx, x * m.b + y * m.d + m.ty)

/-- A rectangle in Flash's layout `(x, y, width, height)`. -/
structure Rect where
  x : ℚ
  y : ℚ
  w : ℚ
  h : ℚ
deriving DecidableEq

/-- The rectangle produced by `Rectangle.setEmpty()`. -/
def emptyRect : Rect := ⟨0, 0, 0, 0⟩

/-- Modelled from the spec: `flash.geom.Rectangle.isEmpty` is not under
`src/`; a rectangle is empty when its width or height is not positive. -/
def Rect.isEmpty (r : Rect) : Bool := decide (r.w ≤ 0 ∨ r.h ≤ 0)

/-- Modelled from the spec: `flash.geom.Rectangle.unionWith` is not under
`src/`; spec section 4.4 calls it "bounding-rectangle union": the smallest
axis-aligned box containing both arguments, where an empty rectangle is the
neutral element. -/
def rectUnion (r s : Rect) : Rect :=
  if r.isEmpty then s
  else if s.isEmpty then r
  else
    let x0 := min r.x s.x
    let y0 := min r.y s.y
    let x1 := max (r.x + r.w) (s.x + s.w)
    let y1 := max (r.y + r.h) (s.y + s.h)
    ⟨x0, y0, x1 - x0, y1 - y0⟩

/-- Modelled from the spec: `flash.geom.Matrix.transformRectAABB` is not under
`src/`; spec section 4.5 describes it as mapping the axis-aligned box through
the matrix and "re-deriving an axis-aligned box from the transformed corners,
not a rotated box". -/
def transformRectAABB (m : Mat) (r : Rect) : Rect :=
  let p1 := applyMat m r.x r.y
  let p2 := applyMat m (r.x + r.w) r.y
  let p3 := applyMat m r.x (r.y + r.h)
  let p4 := applyMat m (r.x + r.w) (r.y + r.h)
  let x0 := min (min p1.1 p2.1) (min p3.1 p4.1)
  let y0 := min (min p1.2 p2.2) (min p3.2 p4.2)
  let x1 := max (max p1.1 p2.1) (max p3.1 p4.1)
  let y1 := max (max p1.2 p2.2) (max p3.2 p4.2)
  ⟨x0, y0, x1 - x0, y1 - y0⟩

/-- A color transform in Flash's layout: four channel multipliers followed by
four channel offsets. -/
structure CTrans where
  rM : ℚ
  gM : ℚ
  bM : ℚ
  aM : ℚ
  rO : ℚ
  gO : ℚ
  bO : ℚ
  aO : ℚ
deriving DecidableEq

/-- The identity color transform, the value of `new ColorTransform()`. -/
def idCTrans : CTrans := ⟨1, 1, 1, 1, 0, 0, 0, 0⟩

/-- Modelled from the spec: `flash.geom.ColorTransform.concat` is not under
`src/`; spec section 4.4 calls the combination rule "tint concatenation":
multipliers multiply channelwise and the second transform's offsets are scaled
by the first transform's multipliers before adding.  (No claim settled below
depends on this formula: the code path that would apply it is unreachable, see
`getConcatenatedColorTransform`.) -/
def ctConcat (c1 c2 : CTrans) : CTrans :=
  ⟨c1.rM * c2.rM, c1.gM * c2.gM, c1.bM * c2.bM, c1.aM * c2.aM,
   c1.rO + c1.rM * c2.rO, c1.gO + c1.gM * c2.gO,
   c1.bO + c1.bM * c2.bO, c1.aO + c1.aM * c2.aO⟩

/-- A display object's state, as read by the derived-property caches: identity
(for the JS `===` comparisons of the tree navigator), flag word, local and
cached-concatenated matrix, local and cached-concatenated color transform, the
two bounding rectangles (`Option` because `_bounds` is initialised to `null`
on line 181 and `_rect` is never initialised), the content collaborator's
graphics bounds (`none` when the node has no `_graphics`), and the container
capability. -/
structure DObj where
  id : Nat
  flags : Nat
  matrix : Mat
  concatenatedMatrix : Mat
  colorTransform : CTrans
  concatenatedColorTransform : CTrans
  bounds : Option Rect
  rect : Option Rect
  graphicsBounds : Option Rect
  isContainer : Bool
deriving DecidableEq

/-- Source `_findClosestAncestor(flags, on)` run over the self-to-root chain
(self first): returns the id of the first node whose `_hasFlags(flags)`
equals the desired state, else `null`.  The source's early exit at `this._stage` never
fires because `_stage` is initialised to `null` and never assigned in the
file, so the walk simply runs to the root. -/
def findClosestAncestor (flags : Nat) (onB : Bool) : List DObj → Option Nat
  | [] => none
  | n :: rest =>
    if hasFlags flags n.flags = onB then some n.id
    else findClosestAncestor flags onB rest

/-- Source `_isAncestor(ancestor)` run over the self-to-root chain of ids
(self first): walks `parent` links from the node itself, returning `true` on
the first `node === ancestor`. -/
def isAncestorB (anc : Nat) : List Nat → Bool
  | [] => false
  | n :: rest => if n = anc then true else isAncestorB anc rest

/-- The `while` loop of `_getAncestors` (lines 448-451), faithfully including
its condition `node && node === last`: while the current node is non-null AND
`node === last`, push it and step to the parent.  Returns the pushed path and
the node at which the loop stopped (`none` standing for JS `null`). -/
def getAncestorsLoop (last : Option Nat) : List Nat → List Nat × Option Nat
  | [] => ([], none)
  | n :: rest =>
    if some n = last then
      let r := getAncestorsLoop last rest
      (n :: r.1, r.2)
    else ([], some n)

/-- Source `_getAncestors(node, last)` over the self-to-root chain of ids
(self first): runs the loop, then `assert(node === last)`; a failed
`Debug.assert` aborts the computation, modelled as `none`. -/
def getAncestors (chain : List Nat) (last : Option Nat) : Option (List Nat) :=
  let r := getAncestorsLoop last chain
  if r.2 = last then some r.1 else none

/-- Looks a node up by id in a chain (the JS code holds direct object
references; the chain model recovers them by id). -/
def lookupNode (chain : List DObj) (nid : Nat) : Option DObj :=
  chain.find? (fun o => o.id == nid)

/-- Replaces the node with the given id in a chain (the JS code mutates the
referenced object in place). -/
def updateNode (chain : List DObj) (nid : Nat) (f : DObj → DObj) : List DObj :=
  chain.map (fun o => if o.id = nid then f o else o)

/-- One iteration of the recomputation loop of `_getConcatenatedMatrix`
(lines 469-475): look up the path node, `assert` it still carries
`InvalidConcatenatedMatrix` (failure aborts, modelled as `none`), extend the
running product `m` by the node's local matrix via `m.concat`, store `m` into
the node's cache and clear its flag. -/
def recomputeMatrixStep (st : Mat × List DObj) (nid : Nat) : Option (Mat × List DObj) :=
  match lookupNode st.2 nid with
  | none => none
  | some nd =>
    if hasFlags InvalidConcatenatedMatrixF nd.flags then
      let m := matConcat st.1 nd.matrix
      some (m, updateNode st.2 nid (fun o =>
        { o with concatenatedMatrix := m,
                 flags := removeFlags InvalidConcatenatedMatrixF o.flags }))
    else none

/-- Folds `recomputeMatrixStep` over the path ids (already reversed to the
source's root-ward-first iteration order). -/
def recomputeMatrixPath : List Nat → Mat × List DObj → Option (Mat × List DObj)
  | [], st => some st
  | nid :: rest, st =>
    match recomputeMatrixStep st nid with
    | none => none
    | some st' => recomputeMatrixPath rest st'

/-- Source `_getConcatenatedMatrix` (lines 460-478) over the self-to-root
chain (self first).  Returns the resulting matrix together with the updated
chain, or `none` when the computation crashes.  Faithful details: the guard
`if (ancestor === this._parent) return this._matrix` on line 461 reads the
hoisted-but-unassigned `var ancestor`, i.e. `undefined`, and `_parent` is
never `undefined` (it is `null` or an object), so the guard is dead and is
omitted; `var m` aliases the valid ancestor's `_concatenatedMatrix` object
when an ancestor exists, so the running product is also written back into that
ancestor's cache (modelled after the loop, the loop never re-reads it). -/
def getConcatenatedMatrix (chain : List DObj) : Option (Mat × List DObj) :=
  match chain with
  | [] => none
  | self :: rest =>
    let c := self :: rest
    if hasFlags InvalidConcatenatedMatrixF self.flags then
      let ancId := findClosestAncestor InvalidConcatenatedMatrixF false c
      match getAncestors (c.map DObj.id) ancId with
      | none => none
      | some pathIds =>
        let m0 := match ancId.bind (lookupNode c) with
          | some a => a.concatenatedMatrix
          | none => idMat
        match recomputeMatrixPath pathIds.reverse (m0, c) with
        | none => none
        | some st =>
          let c2 := match ancId with
            | some aid =>
              updateNode st.2 aid (fun o => { o with concatenatedMatrix := st.1 })
            | none => st.2
          match lookupNode c2 self.id with
          | none => none
          | some self2 => some (self2.concatenatedMatrix, c2)
    else some (self.concatenatedMatrix, c)

/-- One iteration of the recomputation loop of `_getConcatenatedColorTransform`
(lines 506-512), mirroring `recomputeMatrixStep` with color transforms. -/
def recomputeColorStep (st : CTrans × List DObj) (nid : Nat) : Option (CTrans × List DObj) :=
  match lookupNode st.2 nid with
  | none => none
  | some nd =>
    if hasFlags InvalidConcatenatedColorTransformF nd.flags then
      let m := ctConcat st.1 nd.colorTransform
      some (m, updateNode st.2 nid (fun o =>
        { o with concatenatedColorTransform := m,
                 flags := removeFlags InvalidConcatenatedColorTransformF o.flags }))
    else none

/-- Folds `recomputeColorStep` over the reversed path ids. -/
def recomputeColorPath : List Nat → CTrans × List DObj → Option (CTrans × List DObj)
  | [], st => some st
  | nid :: rest, st =>
    match recomputeColorStep st nid with
    | none => none
    | some st' => recomputeColorPath rest st'

/-- Source `_getConcatenatedColorTransform` (lines 497-515) over the
self-to-root chain (self first); structurally identical to
`getConcatenatedMatrix` (including the dead `undefined === this._parent`
guard, the `Debug.assert` aborts and the aliasing of `var m`), with color
transforms in place of matrices. -/
def getConcatenatedColorTransform (chain : List DObj) : Option (CTrans × List DObj) :=
  match chain with
  | [] => none
  | self :: rest =>
    let c := self :: rest
    if hasFlags InvalidConcatenatedColorTransformF self.flags then
      let ancId := findClosestAncestor InvalidConcatenatedColorTransformF false c
      match getAncestors (c.map DObj.id) ancId with
      | none => none
      | some pathIds =>
        let m0 := match ancId.bind (lookupNode c) with
          | some a => a.concatenatedColorTransform
          | none => idCTrans
        match recomputeColorPath pathIds.reverse (m0, c) with
        | none => none
        | some st =>
          let c2 := match ancId with
            | some aid =>
              updateNode st.2 aid (fun o => { o with concatenatedColorTransform := st.1 })
            | none => st.2
          match lookupNode c2 self.id with
          | none => none
          | some self2 => some (self2.concatenatedColorTransform, c2)
    else some (self.concatenatedColorTransform, c)

/-- The naive full recomputation the spec compares against: the matrix product
of all of the node's ancestors' local matrices and its own, composed
root-to-node. -/
def naiveConcatenatedMatrix (chain : List DObj) : Mat :=
  chain.reverse.foldl (fun acc nd => matConcat acc nd.matrix) idMat

/-- Source `_getContentBounds(includeStrokes)` (lines 533-561) on a single
node; containers crash before their children are consulted, so no child state
is needed.  Returns the produced rectangle (`Option Rect` because the cached
field can be JS `null`) and the updated node, or `none` when the code crashes.
Faithful details: `rectangle` is `this._bounds` (strokes) or `this._rect`,
both of which the initializer leaves `null`/undefined, so
`rectangle.setEmpty()` on line 537 throws a `TypeError` when the cached field
is `null`; in the container branch the loop condition on line 549 reads the
undeclared identifier `children` (the declared variable is `container`),
which throws a `ReferenceError` — and the loop body calls `child.getBounds`,
which only exists inside the block comment that starts on line 708. -/
def getContentBounds (n : DObj) (includeStrokes : Bool) : Option (Option Rect × DObj) :=
  let rectangle : Option Rect := if includeStrokes then n.bounds else n.rect
  if hasFlags InvalidBoundsF n.flags then
    match rectangle with
    | none => none
    | some _ =>
      let r0 := emptyRect
      let r1 := match n.graphicsBounds with
        | some g => rectUnion r0 g
        | none => r0
      if n.isContainer then none
      else
        let n2 : DObj :=
          { n with flags := removeFlags InvalidBoundsF n.flags,
                   bounds := if includeStrokes then some r1 else n.bounds,
                   rect := if includeStrokes then n.rect else some r1 }
        some (some r1, n2)
  else some (rectangle, n)

/-- Source `_getTransformedBounds(targetCoordinateSpace, includeStroke,
toPixels)` (lines 563-577), over the self and target self-to-root chains.
`targetIsNull` models passing JS `null` as the target; the source's
`targetCoordinateSpace === this` identity test compares the two chain heads by
id.  Returns the resulting rectangle or `none` when a subcomputation crashes
(`.clone()` on a `null` bounds value is the `TypeError` case). -/
def getTransformedBounds (selfChain targetChain : List DObj) (targetIsNull : Bool)
    (includeStroke toPixels : Bool) : Option Rect :=
  match selfChain with
  | [] => none
  | self :: rest =>
    match getContentBounds self includeStroke with
    | none => none
    | some (orect, self2) =>
      match orect with
      | none => none
      | some bounds =>
        if targetIsNull || (targetChain.head?.map DObj.id = some self.id) ||
            bounds.isEmpty then
          some bounds
        else
          match getConcatenatedMatrix targetChain with
          | none => none
          | some (t, _) =>
            match getConcatenatedMatrix (self2 :: rest) with
            | none => none
            | some (mm, _) =>
              let composed := matConcat (matInvert t) mm
              let r := transformRectAABB composed bounds
              some (if toPixels then ⟨r.x / 20, r.y / 20, r.w / 20, r.h / 20⟩ else r)

/-- Mask-assignment state: the `_mask` and `_maskedObject` back-reference
fields of all nodes, as maps from node id to an optional node id (`none`
standing for JS `null`).  The `_invalidatePaint()` call at the end of the
setter only touches flag words, which are not part of this state. -/
structure MaskState where
  mask : Nat → Option Nat
  maskedObject : Nat → Option Nat

/-- Pointwise update of a field map. -/
def updF (f : Nat → Option Nat) (k : Nat) (v : Option Nat) : Nat → Option Nat :=
  fun n => if n = k then v else f n

/-- Source `set mask(value)` (lines 628-642) specialised to `value = null`,
which is how the setter is re-entered by the detach step
`value._maskedObject.mask = null`: the guard `this._mask === value` compares
against `null`, the detach and the `_maskedObject` write are skipped because
`value` is falsy, so only `this._mask` is cleared. -/
def setMaskNone (s : MaskState) (this : Nat) : MaskState :=
  if s.mask this = none then s
  else { s with mask := updF s.mask this none }

/-- Source `set mask(value)` (lines 628-642): return if `this._mask === value`
or `value === this`; if `value` is in use as a mask, detach it from its
previous target by assigning `null` through that target's own mask setter;
then store `value` in `this._mask` and, when `value` is non-null, point
`value._maskedObject` back at `this`. -/
def setMask (s : MaskState) (this : Nat) (value : Option Nat) : MaskState :=
  if s.mask this = value ∨ value = some this then s
  else
    let s1 := match value with
      | some v =>
        match s.maskedObject v with
        | some prev => setMaskNone s prev
        | none => s
      | none => s
    let s2 : MaskState := { s1 with mask := updF s1.mask this value }
    match value with
    | some v => { s2 with maskedObject := updF s2.maskedObject v (some this) }
    | none => s2

/-- Source `set visible(value)` (lines 685-693) on a flag word: return when
`value` equals the current `Visible` test, otherwise `_setFlags(Visible)`
(unconditionally — the setter never clears the flag) followed by
`_removeFlags(AnimatedByTimeline)`. -/
def setVisible (x : Nat) (value : Bool) : Nat :=
  if value = hasFlags VisibleF x then x
  else removeFlags AnimatedByTimelineF (setFlags VisibleF x)

/-- Truncation toward zero of a rational, the integer part of JS `ToInt32`
before wrapping. -/
def ratTruncate (q : ℚ) : Int := if 0 ≤ q then ⌊q⌋ else -⌊-q⌋

/-- JS `value | 0` on an exact rational: truncate toward zero, then wrap into
the signed 32-bit range. -/
def jsToInt32 (q : ℚ) : Int := (ratTruncate q + 2 ^ 31) % 2 ^ 32 - 2 ^ 31

/-- Source `_invalidateBounds()` of the parent, reached from
`_invalidatePosition` via `this._parent._invalidateBounds()`: it is
`_propagateFlags(InvalidBounds, Direction.Upward)` run at the parent, acting
on the ancestor flag-word chain (parent first, root last): early-return when
the parent already has the flag, otherwise set it on the parent and
unconditionally on every node above it. -/
def invalidateBoundsUp : List Nat → List Nat
  | [] => []
  | p :: rest =>
    if hasFlags InvalidBoundsF p then p :: rest
    else setFlags InvalidBoundsF p :: rest.map (setFlags InvalidBoundsF)

/-- A node's position-mutation state: the flag words of its ancestors (parent
first, root last) and the subtree rooted at the node. -/
def PosWorld : Type := List Nat × DTree

/-- Source `_invalidatePosition()` (lines 589-596): clear
`AnimatedByTimeline` on the node, `_propagateFlags(InvalidConcatenatedMatrix,
Direction.Downward)`, and invalidate the parent's bounds upward when a parent
exists (an empty ancestor chain is the no-parent case, where
`invalidateBoundsUp` does nothing). -/
def invalidatePosition (w : PosWorld) : PosWorld :=
  let t1 := match w.2 with
    | .mk f c x y cs => DTree.mk (removeFlags AnimatedByTimelineF f) c x y cs
  let p := propagateFlags InvalidConcatenatedMatrixF 2 w.1 t1
  (invalidateBoundsUp p.1, p.2)

/-- Source `set x(value)` (lines 602-609): coerce `value * 20` with `| 0`;
return if the result equals `this._matrix.tx`; otherwise store it and run
`_invalidatePosition()`. -/
def setX (v : ℚ) (w : PosWorld) : PosWorld :=
  if jsToInt32 (v * 20) = w.2.tx then w
  else
    invalidatePosition
      (w.1, match w.2 with
        | .mk f c _ y cs => DTree.mk f c (jsToInt32 (v * 20)) y cs)

/-- Source `set y(value)` (lines 615-622), mirroring `set x` on
`this._matrix.ty`. -/
def setY (v : ℚ) (w : PosWorld) : PosWorld :=
  if jsToInt32 (v * 20) = w.2.ty then w
  else
    invalidatePosition
      (w.1, match w.2 with
        | .mk f c x _ cs => DTree.mk f c x (jsToInt32 (v * 20)) cs)

/-- Path-indexed flag lookup in a subtree: follow child indices, return the
flag word of the node reached. -/
def flagsAt : List Nat → DTree → Option Nat
  | [], t => some t.flags
  | i :: is, t =>
    match t.children.get? i with
    | some c => flagsAt is c
    | none => none

/-- A display object with every field at its initializer default (identity
transforms, `null` bounds, no graphics, not a container), parameterised by id
and flag word. -/
def mkObj (nid fl : Nat) : DObj :=
  { id := nid, flags := fl, matrix := idMat, concatenatedMatrix := idMat,
    colorTransform := idCTrans, concatenatedColorTransform := idCTrans,
    bounds := none, rect := none, graphicsBounds := none, isContainer := false }

/-- The child of the C1 failing input: its `x` has been set to `1`, so
`_matrix.tx = 20` twips and `_invalidatePosition` has set
`InvalidConcatenatedMatrix` on it. -/
def c1child : DObj :=
  { mkObj 0 InvalidConcatenatedMatrixF with matrix := ⟨1, 0, 0, 1, 20, 0⟩ }

/-- The parent of the C1 failing input: untouched root with a valid (identity)
concatenated matrix. -/
def c1root : DObj := mkObj 1 0

/-- C4 failing input: a three-node chain whose head has a stale concatenated
color transform while its parent and grandparent are valid. -/
def c4self : DObj := mkObj 0 InvalidConcatenatedColorTransformF

/-- Valid parent of the C4 failing input. -/
def c4parent : DObj := mkObj 1 0

/-- Valid grandparent of the C4 failing input. -/
def c4grand : DObj := mkObj 2 0

/-- C7 failing input: a container-capable node with stale bounds; the cached
rectangle is non-null so execution reaches the container branch. -/
def c7container : DObj :=
  { mkObj 0 InvalidBoundsF with bounds := some emptyRect, rect := some emptyRect,
                                isContainer := true }

/-- C7 failing input: a freshly initialised leaf (bounds `null`, line 181)
whose bounds have been invalidated. -/
def c7freshLeaf : DObj := mkObj 1 InvalidBoundsF

/-- A leaf with a (hypothetically) non-null stale cached rectangle, no
graphics and no children: the one shape of node on which the read succeeds. -/
def c7staleLeaf : DObj :=
  { mkObj 2 InvalidBoundsF with bounds := some ⟨1, 2, 3, 4⟩, rect := some ⟨1, 2, 3, 4⟩ }

/-- Empty mask state: no node has a mask and no node is used as a mask. -/
def emptyMaskState : MaskState := ⟨fun _ => none, fun _ => none⟩

/-- Witness node for C8: valid caches, identity concatenated matrix, content
bounds `(0, 0, 10, 10)`. -/
def c8self : DObj := { mkObj 0 0 with bounds := some ⟨0, 0, 10, 10⟩ }

/-- Witness target for C8: valid caches, concatenated matrix `translate(5, 0)`
(determinant 1). -/
def c8target : DObj := { mkObj 1 0 with concatenatedMatrix := ⟨1, 0, 0, 1, 5, 0⟩ }

lemma hasFlags_setFlags_self (fl x : Nat) : hasFlags fl (setFlags fl x) = true := by
  simp only [hasFlags, setFlags, decide_eq_true_eq]
  apply Nat.eq_of_testBit_eq
  intro i
  simp only [Nat.testBit_land, Nat.testBit_lor]
  cases x.testBit i <;> cases fl.testBit i <;> rfl

lemma propagateFlagsT_root_flags (fl dir : Nat) (t : DTree) :
    (propagateFlagsT fl dir t).flags =
      if hasFlags fl t.flags then t.flags else setFlags fl t.flags := by
  cases t with
  | mk f c x y cs =>
    by_cases h : hasFlags fl f = true
    · simp [propagateFlagsT, DTree.flags, h]
    · simp [propagateFlagsT, DTree.flags, h]

lemma propagateFlags_of_hasFlags (fl dir : Nat) (anc : List Nat) (t : DTree)
    (h : hasFlags fl t.flags = true) : propagateFlags fl dir anc t = (anc, t) := by
  unfold propagateFlags
  rw [if_pos h]

/-- C5: for every node, flag and direction, after one `_propagateFlags` call
the node carries the flag, so a second identical call hits the early-return
guard on line 296 and leaves every node (ancestors and subtree) exactly as the
first call left it. -/
theorem propagateFlags_idempotent (fl dir : Nat) (anc : List Nat) (t : DTree) :
    hasFlags fl ((propagateFlags fl dir anc t).2).flags = true ∧
    propagateFlags fl dir (propagateFlags fl dir anc t).1
        (propagateFlags fl dir anc t).2 = propagateFlags fl dir anc t := by
  have hroot : hasFlags fl ((propagateFlags fl dir anc t).2).flags = true := by
    unfold propagateFlags
    by_cases h : hasFlags fl t.flags = true
    · rw [if_pos h]
      exact h
    · rw [if_neg h]
      simp only [propagateFlagsT_root_flags]
      rw [if_neg h]
      exact hasFlags_setFlags_self fl t.flags
  exact ⟨hroot, propagateFlags_of_hasFlags fl dir _ _ hroot⟩

/-- C5 has no `Prop` hypotheses, but for good measure: the idempotence theorem
evaluated at a concrete flag, direction and tree. -/
theorem propagateFlags_idempotent_witness :
    propagateFlags InvalidConcatenatedMatrixF 2
        (propagateFlags InvalidConcatenatedMatrixF 2 [] chain3).1
        (propagateFlags InvalidConcatenatedMatrixF 2 [] chain3).2 =
      propagateFlags InvalidConcatenatedMatrixF 2 [] chain3 :=
  (propagateFlags_idempotent InvalidConcatenatedMatrixF 2 [] chain3).2

/-- C2: the spec requires `_propagateFlags(flag, Downward)` to set the flag on
every descendant transitively, and the code's own block comment (lines 51-58)
describes marking "all of its valid descendents" invalid; but the recursive
call on line 314 omits the `direction` argument, so recursion stops after the
direct children.  On the root of `chain3` (root, child, grandchild) the child
ends up flagged and the grandchild does not. -/
theorem propagateFlags_downward_misses_grandchild :
    (flagsAt [0] ((propagateFlags InvalidConcatenatedMatrixF 2 [] chain3).2)).map
        (hasFlags InvalidConcatenatedMatrixF) = some true ∧
    (flagsAt [0, 0] ((propagateFlags InvalidConcatenatedMatrixF 2 [] chain3).2)).map
        (hasFlags InvalidConcatenatedMatrixF) = some false ∧
    descendantsHaveFlags InvalidConcatenatedMatrixF
        ((propagateFlags InvalidConcatenatedMatrixF 2 [] chain3).2) = false := by
  decide

/-- C3: `_getAncestors` is documented to return the ancestors of `node` up to
and excluding `last` and to fail its assertion exactly when `last` is not an
ancestor; but the loop condition on line 448 is `node && node === last` (it
should be `node !== last`), so on the two-node chain `1 → 2`, where node `2`
IS an ancestor of node `1` (per the code's own `_isAncestor` walk), the loop
never runs, the path comes back empty instead of `[1]`, and the assertion
`node === last` on line 452 fails. -/
theorem getAncestors_asserts_on_true_ancestor :
    isAncestorB 2 [1, 2] = true ∧ getAncestors [1, 2] (some 2) = none := by
  decide

/-- C1: after the mutation `child.x = 1` the child carries
`InvalidConcatenatedMatrix`, so a read of `_getConcatenatedMatrix` takes the
recomputation branch; `_findClosestAncestor` correctly finds the valid root,
but `_getAncestors` (inverted loop condition, line 448) returns an empty path
and fails its assertion, so the read aborts instead of returning the
root-to-node product `translate(20, 0)` that a naive full recomputation
yields. -/
theorem concatenatedMatrix_read_asserts :
    findClosestAncestor InvalidConcatenatedMatrixF false [c1child, c1root] = some 1 ∧
    getConcatenatedMatrix [c1child, c1root] = none ∧
    naiveConcatenatedMatrix [c1child, c1root] = ⟨1, 0, 0, 1, 20, 0⟩ := by
  refine ⟨by decide, by decide, ?_⟩
  simp [naiveConcatenatedMatrix, matConcat, idMat, c1child, c1root, mkObj]

/-- C4: the spec's guarantee is that a cache read on a dirty node recomputes
exactly the path up to the closest valid ancestor and touches nothing else;
but any such read (`_getConcatenatedColorTransform` here,
`_getConcatenatedMatrix` identically) aborts inside `_getAncestors` before
recomputing anything, so no read of a dirty node ever completes — and had the
loop run, `var m` on line 505 aliases the closest valid ancestor's cached
object, whose in-place `concat` mutation would violate the untouched-ancestor
guarantee as well. -/
theorem concatenatedColorTransform_read_asserts :
    findClosestAncestor InvalidConcatenatedColorTransformF false
        [c4self, c4parent, c4grand] = some 1 ∧
    getConcatenatedColorTransform [c4self, c4parent, c4grand] = none := by
  decide

/-- C7: a container's bounds read crashes on the undeclared identifier
`children` (line 549; the declared variable is `container`, and the
`child.getBounds` it would call only exists inside the block comment starting
on line 708), so the claimed union over children is never computed; a freshly
initialised node crashes earlier, on `rectangle.setEmpty()` with `_bounds =
null`.  Only a leaf whose cached rectangle is somehow non-null completes the
read, and it does produce the empty rectangle of the claim's first half. -/
theorem contentBounds_container_read_crashes :
    getContentBounds c7container true = none ∧
    getContentBounds c7freshLeaf true = none ∧
    (getContentBounds c7staleLeaf true).map Prod.fst = some (some emptyRect) := by
  decide

lemma visible_after_set_remove (x : Nat) :
    hasFlags VisibleF (removeFlags AnimatedByTimelineF (setFlags VisibleF x)) = true := by
  simp only [hasFlags, setFlags, removeFlags, VisibleF, AnimatedByTimelineF, mask32,
    decide_eq_true_eq]
  apply Nat.eq_of_testBit_eq
  intro i
  match i with
  | 0 =>
    simp [Nat.testBit_land, Nat.testBit_lor, Nat.testBit_xor, Nat.testBit_zero]
  | i + 1 =>
    have h1 : Nat.testBit 1 (i + 1) = false := by
      rw [Nat.testBit_succ]
      simp [Nat.zero_testBit]
    rw [Nat.testBit_land, h1, Bool.and_false]

/-- C9: the visible setter either early-returns (leaving the flag word
untouched) or runs `_setFlags(DisplayObjectFlags.Visible)` — it contains no
`_removeFlags`/`_toggleFlags` on `Visible`, so a set `Visible` flag survives
every call, for every argument value including `false`. -/
theorem setVisible_never_clears_visible (x : Nat) (v : Bool)
    (h : hasFlags VisibleF x = true) :
    hasFlags VisibleF (setVisible x v) = true := by
  unfold setVisible
  by_cases hv : v = hasFlags VisibleF x
  · rw [if_pos hv]
    exact h
  · rw [if_neg hv]
    exact visible_after_set_remove x

/-- Witness for C9: a node whose flag word is exactly `Visible`, set
invisible; the flag is still set afterwards. -/
theorem setVisible_never_clears_visible_witness :
    hasFlags VisibleF 1 = true ∧ hasFlags VisibleF (setVisible 1 false) = true :=
  ⟨by decide, setVisible_never_clears_visible 1 false (by decide)⟩

/-- C10: both position setters coerce the argument with `(value * 20) | 0` and
early-return when the result equals the stored translation entry, so neither
flags (in particular `AnimatedByTimeline`), nor the subtree, nor any ancestor
is modified. -/
theorem setPosition_noop_when_unchanged (v : ℚ) (w : PosWorld) :
    (jsToInt32 (v * 20) = w.2.tx → setX v w = w) ∧
    (jsToInt32 (v * 20) = w.2.ty → setY v w = w) := by
  constructor
  · intro h
    unfold setX
    rw [if_pos h]
  · intro h
    unfold setY
    rw [if_pos h]

/-- Witness for C10: setting `x = 0` and `y = 0` on a node whose stored
translation is already `(0, 0)` leaves the whole world unchanged. -/
theorem setPosition_noop_when_unchanged_witness :
    setX 0 ([0], chain3) = ([0], chain3) ∧ setY 0 ([0], chain3) = ([0], chain3) :=
  ⟨(setPosition_noop_when_unchanged 0 ([0], chain3)).1 (by norm_num [jsToInt32, ratTruncate, chain3, DTree.tx]),
   (setPosition_noop_when_unchanged 0 ([0], chain3)).2 (by norm_num [jsToInt32, ratTruncate, chain3, DTree.ty])⟩

lemma setMaskNone_maskedObject (s : MaskState) (t : Nat) :
    (setMaskNone s t).maskedObject = s.maskedObject := by
  unfold setMaskNone
  by_cases h : s.mask t = none
  · rw [if_pos h]
  · rw [if_neg h]

lemma setMask_some_eq (s : MaskState) (t v : Nat) (hvt : v ≠ t)
    (hg : s.mask t ≠ some v) :
    setMask s t (some v) =
      { mask := updF (match s.maskedObject v with
                      | some prev => (setMaskNone s prev).mask
                      | none => s.mask) t (some v),
        maskedObject := updF s.maskedObject v (some t) } := by
  have hneg : ¬(s.mask t = some v ∨ some v = some t) := by
    rintro (h | h)
    · exact hg h
    · exact hvt (Option.some.inj h)
  unfold setMask
  rw [if_neg hneg]
  rcases hmo : s.maskedObject v with _ | prev
  · simp [hmo]
  · simp [hmo, setMaskNone_maskedObject]

/-- C6: assigning the same mask `m` to `t1` and then to `t2` (all three
distinct; the initial state's `_mask`/`_maskedObject` fields mutually
consistent) leaves only `t2` masked: the second assignment's detach step
reassigns `null` through `t1`'s own mask setter, and then rebinds
`m._maskedObject` to `t2`. -/
theorem setMask_exclusive (s : MaskState) (t1 t2 m : Nat)
    (h12 : t1 ≠ t2) (hm1 : m ≠ t1) (hm2 : m ≠ t2)
    (hinv : ∀ a b : Nat, s.mask a = some b ↔ s.maskedObject b = some a) :
    (setMask (setMask s t1 (some m)) t2 (some m)).mask t2 = some m ∧
    (setMask (setMask s t1 (some m)) t2 (some m)).mask t1 = none ∧
    (setMask (setMask s t1 (some m)) t2 (some m)).maskedObject m = some t2 := by
  have hP : (setMask s t1 (some m)).mask t1 = some m ∧
      (setMask s t1 (some m)).maskedObject m = some t1 ∧
      ∀ a, a ≠ t1 → (setMask s t1 (some m)).mask a ≠ some m := by
    by_cases hg1 : s.mask t1 = some m
    · have hid : setMask s t1 (some m) = s := by
        unfold setMask
        rw [if_pos (Or.inl hg1)]
      rw [hid]
      refine ⟨hg1, (hinv t1 m).mp hg1, ?_⟩
      intro a ha hma
      have h1 := (hinv a m).mp hma
      have h2 := (hinv t1 m).mp hg1
      rw [h2] at h1
      exact ha (Option.some.inj h1).symm
    · rw [setMask_some_eq s t1 m hm1 hg1]
      refine ⟨by simp [updF], by simp [updF], ?_⟩
      intro a ha
      rcases hmo : s.maskedObject m with _ | prev
      · simp only [hmo, updF, if_neg ha]
        intro hma
        have h1 := (hinv a m).mp hma
        rw [hmo] at h1
        exact Option.noConfusion h1
      · have hprevm : s.mask prev = some m := (hinv prev m).mpr hmo
        have hpn : ¬ s.mask prev = none := by
          rw [hprevm]
          simp
        simp only [hmo, updF, if_neg ha]
        unfold setMaskNone
        rw [if_neg hpn]
        by_cases hap : a = prev
        · simp [updF, hap]
        · simp only [updF, if_neg hap]
          intro hma
          have h1 := (hinv a m).mp hma
          rw [hmo] at h1
          exact hap (Option.some.inj h1).symm
  obtain ⟨hP1, hP2, hP3⟩ := hP
  have hg2 : (setMask s t1 (some m)).mask t2 ≠ some m := hP3 t2 (Ne.symm h12)
  rw [setMask_some_eq (setMask s t1 (some m)) t2 m hm2 hg2]
  refine ⟨by simp [updF], ?_, by simp [updF]⟩
  have hpn : ¬ (setMask s t1 (some m)).mask t1 = none := by
    rw [hP1]
    simp
  simp only [hP2, updF, if_neg h12]
  unfold setMaskNone
  rw [if_neg hpn]
  simp [updF]

/-- Witness for C6: from the empty state, mask node 3 assigned to node 1 and
then to node 2 leaves only node 2 masked. -/
theorem setMask_exclusive_witness :
    (setMask (setMask emptyMaskState 1 (some 3)) 2 (some 3)).mask 2 = some 3 ∧
    (setMask (setMask emptyMaskState 1 (some 3)) 2 (some 3)).mask 1 = none ∧
    (setMask (setMask emptyMaskState 1 (some 3)) 2 (some 3)).maskedObject 3 = some 2 :=
  setMask_exclusive emptyMaskState 1 2 3 (by decide) (by decide) (by decide)
    (fun a b => by simp [emptyMaskState])

lemma matInvert_is_inverse (m : Mat) (h : matDet m ≠ 0) :
    matConcat m (matInvert m) = idMat ∧ matConcat (matInvert m) m = idMat := by
  unfold matDet at h
  constructor <;>
  · simp only [matConcat, matInvert, idMat, matDet, Mat.mk.injEq]
    refine ⟨?_, ?_, ?_, ?_, ?_, ?_⟩ <;> field_simp <;> ring

/-- C8: when the caches the read consults are valid (so the subcalls return
their cached values), the target differs from the node, and the node's content
bounds are non-empty, `_getTransformedBounds` returns the content bounds
mapped, as an axis-aligned box re-derived from the transformed corners, through
`inverse(target's concatenated matrix) * (node's concatenated matrix)` — and
under the determinant hypothesis `matInvert` is a genuine two-sided inverse,
so the composed matrix is the one the claim names. -/
theorem transformedBounds_composes_inverse (self target : DObj)
    (rest trest : List DObj) (b : Rect)
    (hne : ¬ target.id = self.id)
    (hfb : hasFlags InvalidBoundsF self.flags = false)
    (hbr : self.bounds = some b)
    (hnonempty : b.isEmpty = false)
    (hms : hasFlags InvalidConcatenatedMatrixF self.flags = false)
    (hmt : hasFlags InvalidConcatenatedMatrixF target.flags = false)
    (hdet : matDet target.concatenatedMatrix ≠ 0) :
    getTransformedBounds (self :: rest) (target :: trest) false true false
      = some (transformRectAABB
          (matConcat (matInvert target.concatenatedMatrix) self.concatenatedMatrix)
          b) ∧
    matConcat target.concatenatedMatrix (matInvert target.concatenatedMatrix) = idMat ∧
    matConcat (matInvert target.concatenatedMatrix) target.concatenatedMatrix = idMat := by
  refine ⟨?_, (matInvert_is_inverse _ hdet).1, (matInvert_is_inverse _ hdet).2⟩
  have hcb : getContentBounds self true = some (some b, self) := by
    unfold getContentBounds
    simp [hfb, hbr]
  have hgmSelf : getConcatenatedMatrix (self :: rest)
      = some (self.concatenatedMatrix, self :: rest) := by
    unfold getConcatenatedMatrix
    simp [hms]
  have hgmTarget : getConcatenatedMatrix (target :: trest)
      = some (target.concatenatedMatrix, target :: trest) := by
    unfold getConcatenatedMatrix
    simp [hmt]
  simp [getTransformedBounds, hcb, hne, hnonempty, hgmSelf, hgmTarget]

/-- Witness for C8 at the two concrete single-node chains. -/
theorem transformedBounds_composes_inverse_witness :
    getTransformedBounds [c8self] [c8target] false true false
      = some (transformRectAABB
          (matConcat (matInvert c8target.concatenatedMatrix) c8self.concatenatedMatrix)
          ⟨0, 0, 10, 10⟩) :=
  (transformedBounds_composes_inverse c8self c8target [] [] ⟨0, 0, 10, 10⟩
    (by decide) (by decide) rfl (by norm_num [Rect.isEmpty]) (by decide) (by decide)
    (by norm_num [matDet, c8target, mkObj])).1
